import Mathlib

/-!
# Verification of the RouteRL-URB agent-population and reward-shaping model

Shallow embedding of the repository's core logic: the reward shaping
function for machine agents, the mutation controller, the human
behavioral (cost-table) model, the environment lifecycle (reset) and the
configuration-defaults mechanism.  The repository sources available are
the tutorial notebooks, the CI workflows and
`routerl/environment/defaults.json`; the `routerl` library functions the
notebooks call (mutation, reward computation, the gawron cost model,
reset) are not among the sources, so those operations are modelled from
the specification, as marked on each definition.
-/

namespace RouteRL

/-- The four travel-time statistics provided to a machine agent `k`:
own travel time, the mean travel time of `k`'s group, the mean travel
time of the agents not in `k`'s group, and the system-wide mean. -/
structure TravelStats where
  own : ℚ
  grp : ℚ
  other : ℚ
  sys : ℚ
deriving DecidableEq, Repr

/-- A machine agent's behavior vector `φ ∈ ℝ⁴` (modelled over `ℚ`),
weighting the four travel-time statistics. -/
structure Behavior where
  phi1 : ℚ
  phi2 : ℚ
  phi3 : ℚ
  phi4 : ℚ
deriving DecidableEq, Repr

/-- Modelled from the spec: the reward shaping function (the `routerl`
library code that computes machine rewards is not among the repository
sources).  Per §4.3 of the spec and the notebook markdown,
`r_k = φ_{k1}·T_own + φ_{k2}·T_group + φ_{k3}·T_other + φ_{k4}·T_all`. -/
def reward (φ : Behavior) (T : TravelStats) : ℚ :=
  φ.phi1 * T.own + φ.phi2 * T.grp + φ.phi3 * T.other + φ.phi4 * T.sys

/-- The behavior vector of a `Behavior` as a function `Fin 4 → ℚ`. -/
def Behavior.vec (φ : Behavior) : Fin 4 → ℚ := ![φ.phi1, φ.phi2, φ.phi3, φ.phi4]

/-- The statistics vector of a `TravelStats` as a function `Fin 4 → ℚ`. -/
def TravelStats.vec (T : TravelStats) : Fin 4 → ℚ := ![T.own, T.grp, T.other, T.sys]

/-- Dot product of two 4-vectors of rationals. -/
def dot4 (a b : Fin 4 → ℚ) : ℚ := ∑ i, a i * b i

/-- Pointwise combination `c • T + T'` of two statistics tuples,
used to state linearity of the reward in the statistics. -/
def TravelStats.combine (c : ℚ) (T T' : TravelStats) : TravelStats :=
  ⟨c * T.own + T'.own, c * T.grp + T'.grp, c * T.other + T'.other, c * T.sys + T'.sys⟩

/-- Behavioral strategies table: Altruistic `(0,0,0,1)`. -/
def altruistic : Behavior := ⟨0, 0, 0, 1⟩

/-- Behavioral strategies table: Collaborative `(0.5,0.5,0,0)`. -/
def collaborative : Behavior := ⟨1/2, 1/2, 0, 0⟩

/-- Behavioral strategies table: Competitive `(2,0,-1,0)`. -/
def competitive : Behavior := ⟨2, 0, -1, 0⟩

/-- Behavioral strategies table: Malicious `(0,0,-1,0)`. -/
def malicious : Behavior := ⟨0, 0, -1, 0⟩

/-- Behavioral strategies table: Selfish `(1,0,0,0)`. -/
def selfish : Behavior := ⟨1, 0, 0, 0⟩

/-- Behavioral strategies table: Social `(0.5,0,0,0.5)`. -/
def social : Behavior := ⟨1/2, 0, 0, 1/2⟩

/-- The kind of an agent: rule-based Human or learning Machine (AV). -/
inductive AgentKind where
  | human
  | machine
deriving DecidableEq, Repr

/-- Per-driver state: stable integer id, kind, trip attributes
(origin, destination, start time) and the per-path cost table. -/
structure Agent where
  id : Nat
  kind : AgentKind
  origin : Nat
  destination : Nat
  startTime : Nat
  costTable : List ℚ
deriving DecidableEq, Repr

/-- Whether an agent is currently of kind Human. -/
def isHuman (a : Agent) : Bool := a.kind == .human

/-- Whether an agent is currently of kind Machine. -/
def isMachine (a : Agent) : Bool := a.kind == .machine

/-- The human agents of a population (`env.human_agents`). -/
def humanAgents (pop : List Agent) : List Agent := pop.filter isHuman

/-- The machine agents of a population (`env.machine_agents`). -/
def machineAgents (pop : List Agent) : List Agent := pop.filter isMachine

/-- Number of human agents. -/
def humanCount (pop : List Agent) : Nat := (humanAgents pop).length

/-- Number of machine agents. -/
def machineCount (pop : List Agent) : Nat := (machineAgents pop).length

/-- The ids of a population, in population order. -/
def ids (pop : List Agent) : List Nat := pop.map Agent.id

/-- The initial population the environment builds: `n` Human agents
with ids `0, 1, …, n-1` (trip attributes and cost tables at their
initial values), as listed by the notebooks after `env.start()`. -/
def mkPopulation (n : Nat) : List Agent :=
  (List.range n).map (fun i => ⟨i, .human, 0, 0, 0, []⟩)

/-- Error kinds of the mutation controller (§7). -/
inductive MutationError where
  | insufficientPopulation
deriving DecidableEq, Repr

/-- Modelled from the spec: how `env.mutation()` rewrites one agent
(the mutation controller of the `routerl` library is not among the
sources).  An agent whose id was drawn and that is currently Human flips
to Machine, preserving id, origin, destination and start time (§4.2);
all other agents are untouched. -/
def mutateAgent (pick : List Nat) (a : Agent) : Agent :=
  if a.id ∈ pick ∧ a.kind = .human then { a with kind := .machine } else a

/-- Modelled from the spec: `env.mutation()` (§4.2).  The uniform random
draw without replacement is modelled by the explicit list `pick` of
selected ids (a valid draw is `ValidPick`).  If the requested `count`
exceeds the current human population the call fails with
`InsufficientPopulation`; otherwise the drawn Human agents flip to
Machine. -/
def mutation (pop : List Agent) (count : Nat) (pick : List Nat) :
    Except MutationError (List Agent) :=
  if humanCount pop < count then .error .insufficientPopulation
  else .ok (pop.map (mutateAgent pick))

/-- The population after a `mutation` call: a failed call does not
corrupt state, so the population is left unchanged. -/
def mutationResult (pop : List Agent) (count : Nat) (pick : List Nat) : List Agent :=
  match mutation pop count pick with
  | .ok p => p
  | .error _ => pop

/-- A valid random draw for `mutation`: `count` distinct ids, each the
id of an agent of `pop` currently of kind Human (selection without
replacement from the current human population). -/
def ValidPick (pop : List Agent) (count : Nat) (pick : List Nat) : Prop :=
  pick.Nodup ∧ pick.length = count ∧
  ∀ i ∈ pick, ∃ a ∈ pop, a.id = i ∧ a.kind = .human

/-- Smoothing rate `alpha_zero = 0.2` of the default gawron human model
(`routerl/environment/defaults.json`). -/
def alphaZero : ℚ := 1/5

/-- Modelled from the spec: the human behavioral model's cost-table
update (§4.1; the gawron model of the `routerl` library is not among
the sources): the estimate for the taken path moves a fraction `r` of
the way from the previous estimate `old` toward the day's realized
travel time `s` (exponential smoothing with rate `r`). -/
def smoothUpdate (r old s : ℚ) : ℚ := r * s + (1 - r) * old

/-- The cost table with the entry of the taken path `i` updated by
exponential smoothing; the other entries are untouched (§4.1: updated
only for the path actually taken). -/
def updateCostTable (tbl : List ℚ) (i : Nat) (t : ℚ) : List ℚ :=
  tbl.set i (smoothUpdate alphaZero (tbl.getD i 0) t)

/-- Modelled from the spec: what one simulated day (§4.4) does to a
single agent, given the day's realized travel time `t` on the taken
path `act`: a Human agent's cost table is updated for the taken path;
id, kind and trip attributes are never touched. -/
def stepAgent (t : ℚ) (act : Nat) (a : Agent) : Agent :=
  if a.kind = .human then { a with costTable := updateCostTable a.costTable act t } else a

/-- An operation on the population: one simulated day (`env.step()`,
with `f` giving each agent id the day's realized travel time and taken
path), or a mutation call (`env.mutation()`). -/
inductive Op where
  | step (f : Nat → ℚ × Nat)
  | mutate (count : Nat) (pick : List Nat)

/-- Applying one operation to the population. -/
def applyOp (pop : List Agent) : Op → List Agent
  | .step f => pop.map (fun a => stepAgent (f a.id).1 (f a.id).2 a)
  | .mutate count pick => mutationResult pop count pick

/-- Applying a sequence of operations (days and mutation calls). -/
def runOps (pop : List Agent) (ops : List Op) : List Agent := ops.foldl applyOp pop

/-- The order on kinds under which every transition must be monotone:
Human may become Machine, Machine never goes back to Human.  With only
two kinds, monotonicity along a run means the kind flips at most once. -/
def kindLE (k k' : AgentKind) : Bool := k == .human || k' == .machine

/-- The per-agent invariant between an earlier and a later population
state: same id at the same position, and the kind never goes back from
Machine to Human. -/
def AgentInv (a b : Agent) : Prop := a.id = b.id ∧ kindLE a.kind b.kind = true

/-- The smallest per-path cost of a cost table (`0` for an empty one). -/
def minCost : List ℚ → ℚ
  | [] => 0
  | [c] => c
  | c :: c' :: t => min c (minCost (c' :: t))

/-- Index of the first smallest entry of a cost table. -/
def argminIdx : List ℚ → Nat
  | [] => 0
  | [_] => 0
  | c :: c' :: t => if c ≤ minCost (c' :: t) then 0 else argminIdx (c' :: t) + 1

/-- The per-path utilities a human route choice ranks: `β·cost + noise`
for each path index (lower cost means higher choice probability; the
realized random noise per path is the function `noise`). -/
def utilities (beta : ℚ) (costs : List ℚ) (noise : Nat → ℚ) : List ℚ :=
  costs.enum.map (fun p => beta * p.2 + noise p.1)

/-- Modelled from the spec: the human route choice (§4.1; the gawron
model of the `routerl` library is not among the sources).  The cost
estimates — falling back to the free-flow costs when the cost table has
no travel-time history, the cold-start default — are turned into
utilities whose realized maximizer (modelled as the minimizer of
`β·cost + noise`, `β < 0`) is the chosen path index. -/
def chooseRoute (costTable freeFlow : List ℚ) (beta : ℚ) (noise : Nat → ℚ) : Nat :=
  let costs := if costTable.isEmpty then freeFlow else costTable
  argminIdx (utilities beta costs noise)

/-- Modelled from the spec: `env.reset()` returns the pair of the
initial observation mapping and info mapping, one entry per machine
(learning) agent (§6: observations are produced for each machine agent;
the `TrafficEnvironment` code is not among the sources). -/
def resetEnv (pop : List Agent) : List (Nat × List ℚ) × List (Nat × List ℚ) :=
  ((machineAgents pop).map (fun a => (a.id, a.costTable)),
   (machineAgents pop).map (fun a => (a.id, [])))

/-- The configuration options relevant to the claims, resolved. -/
structure Config where
  numAgents : Nat
  newMachinesAfterMutation : Nat
  machineBehavior : String
  numberOfPaths : Nat
deriving DecidableEq, Repr

/-- The packaged defaults of `routerl/environment/defaults.json`:
`num_agents = 100`, `new_machines_after_mutation = 25`, machine
behavior `"selfish"`, `number_of_paths = 3`. -/
def defaultConfig : Config := ⟨100, 25, "selfish", 3⟩

/-- A caller-supplied parameter dictionary: each option may be omitted. -/
structure PartialConfig where
  numAgents : Option Nat
  newMachinesAfterMutation : Option Nat
  machineBehavior : Option String
  numberOfPaths : Option Nat
deriving DecidableEq, Repr

/-- Modelled from the spec: `TrafficEnvironment` fills every omitted
option from the packaged defaults (`defaults.json` is among the
sources; the parameter-merging code is not). -/
def resolveConfig (u : PartialConfig) : Config :=
  ⟨u.numAgents.getD defaultConfig.numAgents,
   u.newMachinesAfterMutation.getD defaultConfig.newMachinesAfterMutation,
   u.machineBehavior.getD defaultConfig.machineBehavior,
   u.numberOfPaths.getD defaultConfig.numberOfPaths⟩

/-- The same parameter dictionary with the defaults supplied explicitly
for the missing keys. -/
def fillDefaults (u : PartialConfig) : PartialConfig :=
  ⟨some (u.numAgents.getD defaultConfig.numAgents),
   some (u.newMachinesAfterMutation.getD defaultConfig.newMachinesAfterMutation),
   some (u.machineBehavior.getD defaultConfig.machineBehavior),
   some (u.numberOfPaths.getD defaultConfig.numberOfPaths)⟩

/-- C1: for every behavior vector `φ` and every 4-tuple of travel-time
statistics, the reward shaping function returns exactly the dot product
`φ_{k1}·T_own + φ_{k2}·T_group + φ_{k3}·T_other + φ_{k4}·T_all`, and it
is a pure linear function of the four statistics (additive and
homogeneous in the statistics tuple), with no other dependence. -/
theorem reward_is_dot_product (φ : Behavior) (T : TravelStats) :
    reward φ T = dot4 φ.vec T.vec ∧
    (∀ (c : ℚ) (T' : TravelStats),
      reward φ (TravelStats.combine c T T') = c * reward φ T + reward φ T') := by
  constructor
  · simp [reward, dot4, Behavior.vec, TravelStats.vec, Fin.sum_univ_four]
  · intro c T'
    simp only [reward, TravelStats.combine]
    ring

/-- C5: with the Malicious behavior vector `φ = (0,0,-1,0)` the reward
depends only on `T_other`: any two statistics tuples agreeing on
`T_other` get equal rewards, and when `T_other = 3` the reward is
`-1 × 3 = -3`. -/
theorem malicious_reward_depends_only_on_other :
    (∀ T T' : TravelStats, T.other = T'.other →
      reward malicious T = reward malicious T') ∧
    (∀ T : TravelStats, T.other = 3 → reward malicious T = -3) := by
  constructor
  · intro T T' h
    simp [reward, malicious, h]
  · intro T h
    simp [reward, malicious, h]

/-- Witness for C5 at concrete inputs: the tuples `(1,2,3,4)` and
`(10,20,3,40)` agree on `T_other = 3` and get the same reward `-3`. -/
theorem malicious_reward_depends_only_on_other_witness :
    reward malicious ⟨1, 2, 3, 4⟩ = reward malicious ⟨10, 20, 3, 40⟩ ∧
    reward malicious ⟨1, 2, 3, 4⟩ = -3 :=
  ⟨malicious_reward_depends_only_on_other.1 ⟨1, 2, 3, 4⟩ ⟨10, 20, 3, 40⟩ rfl,
   malicious_reward_depends_only_on_other.2 ⟨1, 2, 3, 4⟩ rfl⟩

/-- C6 counterexample: with the Selfish behavior vector `φ = (1,0,0,0)`
and `T_own = 5`, the reward as defined by the spec's formula is `+5`,
not `-5`: there is no extra sign flip, so with positive `φ` components a
higher travel time contributes positively, not negatively, to the
computed reward value. -/
theorem selfish_reward_sign_counterexample :
    reward selfish ⟨5, 7, 11, 13⟩ = 5 ∧ (5 : ℚ) ≠ -5 := by
  constructor
  · simp [reward, selfish]
  · norm_num

/-- C6 amended: with the Selfish behavior vector `φ = (1,0,0,0)` and
`T_own = 5`, the reward equals `+5` (not `-5`) regardless of the group,
other-group and system-wide statistics: `φ` is applied as a linear
functional with no additional sign flip, so with positive `φ` components
a higher travel time contributes positively to the reward value. -/
theorem selfish_reward_own_only (g o s : ℚ) :
    reward selfish ⟨5, g, o, s⟩ = 5 := by
  simp [reward, selfish]

theorem mutateAgent_id (pick : List Nat) (a : Agent) :
    (mutateAgent pick a).id = a.id := by
  simp only [mutateAgent]
  split <;> rfl

theorem ids_map_mutateAgent (pick : List Nat) (pop : List Agent) :
    ids (pop.map (mutateAgent pick)) = ids pop := by
  simp only [ids, List.map_map]
  apply List.map_congr_left
  intro a _
  exact mutateAgent_id pick a

theorem ids_mkPopulation (n : Nat) : ids (mkPopulation n) = List.range n := by
  simp [ids, mkPopulation, List.map_map, Function.comp_def]

theorem humanCount_mkPopulation (n : Nat) : humanCount (mkPopulation n) = n := by
  simp only [humanCount, humanAgents, mkPopulation, List.filter_map]
  have h : (List.filter (isHuman ∘ fun i => (⟨i, .human, 0, 0, 0, []⟩ : Agent)) (List.range n))
      = List.range n := by
    apply List.filter_eq_self.2
    intro i _
    rfl
  rw [h, List.length_map, List.length_range]

theorem countP_range_mem (n : Nat) (pick : List Nat) (hnd : pick.Nodup)
    (hlt : ∀ i ∈ pick, i < n) :
    (List.range n).countP (fun i => decide (i ∈ pick)) = pick.length := by
  rw [List.countP_eq_length_filter]
  have hperm : ((List.range n).filter (fun i => decide (i ∈ pick))).Perm pick := by
    rw [List.perm_ext_iff_of_nodup (List.Nodup.filter _ (List.nodup_range n)) hnd]
    intro a
    simp only [List.mem_filter, List.mem_range, decide_eq_true_eq]
    exact ⟨fun h => h.2, fun h => ⟨hlt a h, h⟩⟩
  exact hperm.length_eq

theorem isMachine_eq_not_isHuman (a : Agent) : isMachine a = !(isHuman a) := by
  cases h : a.kind <;> simp [isMachine, isHuman, h]

/-- C2: for the population of 100 agents all initially Human and a
configured mutation count of 40, one `mutation` call (for every valid
random draw) succeeds and leaves 60 Human and 40 Machine agents, and
the multiset union of the human and machine ids equals the original
100 ids, with no duplicates and no omissions. -/
theorem mutation_100_to_60_40 (pick : List Nat)
    (h : ValidPick (mkPopulation 100) 40 pick) :
    ∃ pop', mutation (mkPopulation 100) 40 pick = .ok pop' ∧
      humanCount pop' = 60 ∧ machineCount pop' = 40 ∧
      ((ids (humanAgents pop') ++ ids (machineAgents pop')).Perm (ids (mkPopulation 100)) ∧
       (ids (humanAgents pop') ++ ids (machineAgents pop')).Nodup) := by
  obtain ⟨hnd, hlen, hmem⟩ := h
  have hlt : ∀ i ∈ pick, i < 100 := by
    intro i hi
    obtain ⟨a, ha, hid, _⟩ := hmem i hi
    simp only [mkPopulation, List.mem_map, List.mem_range] at ha
    obtain ⟨j, hj, rfl⟩ := ha
    have hji : j = i := hid
    omega
  have hok : mutation (mkPopulation 100) 40 pick
      = .ok ((mkPopulation 100).map (mutateAgent pick)) := by
    simp [mutation, humanCount_mkPopulation]
  set g : Nat → Agent := fun i =>
    if i ∈ pick then (⟨i, .machine, 0, 0, 0, []⟩ : Agent) else ⟨i, .human, 0, 0, 0, []⟩
    with hg
  have hmap : (mkPopulation 100).map (mutateAgent pick) = (List.range 100).map g := by
    simp only [mkPopulation, List.map_map]
    apply List.map_congr_left
    intro i _
    simp only [Function.comp, mutateAgent, hg]
    by_cases hi : i ∈ pick
    · simp [hi]
    · simp [hi]
  have hgh : (fun i => isHuman (g i)) = fun i => !(decide (i ∈ pick)) := by
    funext i
    by_cases hi : i ∈ pick <;> simp [hg, isHuman, hi]
  have hgm : (fun i => isMachine (g i)) = fun i => decide (i ∈ pick) := by
    funext i
    by_cases hi : i ∈ pick <;> simp [hg, isMachine, hi]
  have hcm : (List.range 100).countP (fun i => decide (i ∈ pick)) = 40 :=
    hlen ▸ countP_range_mem 100 pick hnd hlt
  have hch : (List.range 100).countP (fun i => !(decide (i ∈ pick))) = 60 := by
    have htot := List.length_eq_countP_add_countP (fun i => decide (i ∈ pick)) (List.range 100)
    have heq : (fun (a : Nat) => decide (¬(decide (a ∈ pick)) = true))
        = fun i => !(decide (i ∈ pick)) := by
      funext a
      by_cases ha : a ∈ pick <;> simp [ha]
    rw [List.length_range, hcm, heq] at htot
    omega
  have hhc : humanCount ((mkPopulation 100).map (mutateAgent pick)) = 60 := by
    rw [hmap]
    simp only [humanCount, humanAgents]
    rw [← List.countP_eq_length_filter, List.countP_map]
    have : (isHuman ∘ g) = fun i => !(decide (i ∈ pick)) := by
      funext i
      exact congrFun hgh i
    rw [this, hch]
  have hmc : machineCount ((mkPopulation 100).map (mutateAgent pick)) = 40 := by
    rw [hmap]
    simp only [machineCount, machineAgents]
    rw [← List.countP_eq_length_filter, List.countP_map]
    have : (isMachine ∘ g) = fun i => decide (i ∈ pick) := by
      funext i
      exact congrFun hgm i
    rw [this, hcm]
  set pop' := (mkPopulation 100).map (mutateAgent pick) with hpop'
  have h3 : machineAgents pop' = pop'.filter (fun a => !(isHuman a)) :=
    List.filter_congr (fun a _ => isMachine_eq_not_isHuman a)
  have h4 : ((humanAgents pop') ++ (machineAgents pop')).Perm pop' := by
    rw [h3]
    exact List.filter_append_perm isHuman pop'
  have h5 := h4.map Agent.id
  rw [List.map_append] at h5
  have hid5 : (List.map Agent.id pop') = ids (mkPopulation 100) := by
    rw [hpop']
    exact ids_map_mutateAgent pick (mkPopulation 100)
  have hperm : (ids (humanAgents pop') ++ ids (machineAgents pop')).Perm
      (ids (mkPopulation 100)) := by
    rw [ids, ids]
    rw [hid5] at h5
    exact h5
  have hnodup : (ids (humanAgents pop') ++ ids (machineAgents pop')).Nodup := by
    rw [hperm.nodup_iff, ids_mkPopulation]
    exact List.nodup_range 100
  exact ⟨pop', hok, hhc, hmc, hperm, hnodup⟩

/-- Witness for C2 at the concrete draw `0, 1, …, 39`. -/
theorem mutation_100_to_60_40_witness :
    ValidPick (mkPopulation 100) 40 (List.range 40) ∧
    (∃ pop', mutation (mkPopulation 100) 40 (List.range 40) = .ok pop' ∧
      humanCount pop' = 60 ∧ machineCount pop' = 40 ∧
      ((ids (humanAgents pop') ++ ids (machineAgents pop')).Perm (ids (mkPopulation 100)) ∧
       (ids (humanAgents pop') ++ ids (machineAgents pop')).Nodup)) :=
  have hv : ValidPick (mkPopulation 100) 40 (List.range 40) := by
    refine ⟨List.nodup_range 40, List.length_range 40, ?_⟩
    intro i hi
    refine ⟨⟨i, .human, 0, 0, 0, []⟩, ?_, rfl, rfl⟩
    simp only [mkPopulation, List.mem_map, List.mem_range]
    have h40 : i < 40 := List.mem_range.1 hi
    exact ⟨i, by omega, rfl⟩
  ⟨hv, mutation_100_to_60_40 (List.range 40) hv⟩

/-- C3: for every population state, a `mutation` call requesting
strictly more agents than are currently Human fails with
`InsufficientPopulation` and leaves the human and machine counts
unchanged; a call requesting at most the current human population
(including exactly all of it) succeeds. -/
theorem mutation_requires_enough_humans (pop : List Agent) (count : Nat) (pick : List Nat) :
    (humanCount pop < count →
      mutation pop count pick = .error .insufficientPopulation ∧
      humanCount (mutationResult pop count pick) = humanCount pop ∧
      machineCount (mutationResult pop count pick) = machineCount pop) ∧
    (count ≤ humanCount pop →
      mutation pop count pick = .ok (pop.map (mutateAgent pick))) := by
  constructor
  · intro h
    refine ⟨?_, ?_, ?_⟩ <;> simp [mutation, mutationResult, h]
  · intro h
    simp [mutation, Nat.not_lt.2 h]

/-- Witness for C3 on a population of 2 Humans: requesting 3 fails and
changes no counts; requesting exactly 2 (the whole human population)
succeeds. -/
theorem mutation_requires_enough_humans_witness :
    (humanCount (mkPopulation 2) < 3 ∧
      mutation (mkPopulation 2) 3 [0, 1, 2] = .error .insufficientPopulation ∧
      humanCount (mutationResult (mkPopulation 2) 3 [0, 1, 2]) = humanCount (mkPopulation 2) ∧
      machineCount (mutationResult (mkPopulation 2) 3 [0, 1, 2]) = machineCount (mkPopulation 2)) ∧
    (2 ≤ humanCount (mkPopulation 2) ∧
      mutation (mkPopulation 2) 2 [0, 1] = .ok ((mkPopulation 2).map (mutateAgent [0, 1]))) :=
  ⟨⟨by decide, (mutation_requires_enough_humans (mkPopulation 2) 3 [0, 1, 2]).1 (by decide)⟩,
   ⟨by decide, (mutation_requires_enough_humans (mkPopulation 2) 2 [0, 1]).2 (by decide)⟩⟩

theorem kindLE_refl (k : AgentKind) : kindLE k k = true := by
  cases k <;> rfl

theorem kindLE_trans {a b c : AgentKind} (h1 : kindLE a b = true) (h2 : kindLE b c = true) :
    kindLE a c = true := by
  cases a <;> cases b <;> cases c <;> simp_all [kindLE]

theorem agentInv_refl (a : Agent) : AgentInv a a := ⟨rfl, kindLE_refl a.kind⟩

theorem agentInv_trans {a b c : Agent} (h1 : AgentInv a b) (h2 : AgentInv b c) : AgentInv a c :=
  ⟨h1.1.trans h2.1, kindLE_trans h1.2 h2.2⟩

theorem forall₂_agentInv_trans {l m n : List Agent}
    (h1 : List.Forall₂ AgentInv l m) (h2 : List.Forall₂ AgentInv m n) :
    List.Forall₂ AgentInv l n := by
  induction h1 generalizing n with
  | nil =>
    cases h2
    exact .nil
  | cons hab h ih =>
    cases h2 with
    | cons hbc h' => exact .cons (agentInv_trans hab hbc) (ih h')

theorem applyOp_inv (pop : List Agent) (op : Op) :
    List.Forall₂ AgentInv pop (applyOp pop op) := by
  cases op with
  | step f =>
    rw [applyOp, List.forall₂_map_right_iff]
    apply List.forall₂_same.2
    intro a _
    constructor
    · simp only [stepAgent]
      split <;> rfl
    · simp only [stepAgent]
      split <;> exact kindLE_refl _
  | mutate count pick =>
    simp only [applyOp, mutationResult, mutation]
    by_cases hc : humanCount pop < count
    · simp only [if_pos hc]
      exact List.forall₂_same.2 (fun a _ => agentInv_refl a)
    · simp only [if_neg hc]
      rw [List.forall₂_map_right_iff]
      apply List.forall₂_same.2
      intro a _
      constructor
      · exact (mutateAgent_id pick a).symm
      · simp only [mutateAgent]
        split
        · next h => simp [kindLE, h.2]
        · exact kindLE_refl _

theorem runOps_inv (pop : List Agent) (ops : List Op) :
    List.Forall₂ AgentInv pop (runOps pop ops) := by
  induction ops generalizing pop with
  | nil => exact List.forall₂_same.2 fun a _ => agentInv_refl a
  | cons op rest ih => exact forall₂_agentInv_trans (applyOp_inv pop op) (ih (applyOp pop op))

/-- C4: along every sequence of operations (simulated days and mutation
calls), every agent keeps its integer id, and its kind only ever moves
up the order Human ≤ Machine — so it flips Human→Machine at most once
and never goes back — both from the initial population to the final one
and from any reached state to any later state. -/
theorem agent_id_kind_invariant (pop : List Agent) (ops : List Op) :
    List.Forall₂ AgentInv pop (runOps pop ops) ∧
    ∀ more : List Op, List.Forall₂ AgentInv (runOps pop ops) (runOps pop (ops ++ more)) := by
  refine ⟨runOps_inv pop ops, fun more => ?_⟩
  have h : runOps pop (ops ++ more) = runOps (runOps pop ops) more := by
    simp [runOps, List.foldl_append]
  rw [h]
  exact runOps_inv (runOps pop ops) more

theorem argminIdx_lt_length (l : List ℚ) (h : l ≠ []) : argminIdx l < l.length := by
  induction l with
  | nil => exact absurd rfl h
  | cons c t ih =>
    cases t with
    | nil => simp [argminIdx]
    | cons c' t' =>
      rw [argminIdx]
      split
      · simp
      · have := ih (List.cons_ne_nil c' t')
        simpa using Nat.succ_lt_succ this

theorem length_utilities (beta : ℚ) (costs : List ℚ) (noise : Nat → ℚ) :
    (utilities beta costs noise).length = costs.length := by
  simp [utilities]

/-- C7: cold start is safe: for a human agent whose cost table has no
travel-time history and whose origin-destination pair offers 3 paths,
the route choice falls back to the free-flow costs and returns a valid
path index in `[0,3)`, for every cost coefficient and every realization
of the choice noise. -/
theorem cold_start_choice_in_range (freeFlow : List ℚ) (beta : ℚ) (noise : Nat → ℚ)
    (h : freeFlow.length = 3) :
    chooseRoute [] freeFlow beta noise < 3 := by
  have hne : utilities beta freeFlow noise ≠ [] := by
    intro hnil
    have := length_utilities beta freeFlow noise
    rw [hnil] at this
    simp [h] at this
  have := argminIdx_lt_length (utilities beta freeFlow noise) hne
  rw [length_utilities, h] at this
  simpa [chooseRoute] using this

/-- Witness for C7: with free-flow costs `[3, 1, 2]`, cost coefficient
`-1` and zero noise, the cold-start route choice is a valid index. -/
theorem cold_start_choice_in_range_witness :
    ([(3 : ℚ), 1, 2].length = 3) ∧
    chooseRoute [] [(3 : ℚ), 1, 2] (-1) (fun _ => 0) < 3 :=
  ⟨rfl, cold_start_choice_in_range [(3 : ℚ), 1, 2] (-1) (fun _ => 0) rfl⟩

/-- C8: for a fresh cost table with default estimate `d`, smoothing
rate `r ∈ (0,1)` and a sample `s ≠ d`, a single update yields an
estimate strictly between `d` and `s`, and updating twice with the same
sample is not the naive double application of the single-update delta
(a repeated identical sample is not double-counted). -/
theorem cost_update_strictly_between (d s r : ℚ)
    (h0 : 0 < r) (h1 : r < 1) (hne : s ≠ d) :
    (min d s < smoothUpdate r d s ∧ smoothUpdate r d s < max d s) ∧
    smoothUpdate r (smoothUpdate r d s) s ≠ d + 2 * (smoothUpdate r d s - d) := by
  have key : smoothUpdate r d s = d + r * (s - d) := by
    simp only [smoothUpdate]
    ring
  constructor
  · rcases lt_or_gt_of_ne hne with hlt | hgt
    · have hd : d > s := hlt
      rw [min_comm, max_comm]
      rw [min_eq_left (le_of_lt hd), max_eq_right (le_of_lt hd), key]
      constructor
      · nlinarith
      · nlinarith
    · have hd : d < s := hgt
      rw [min_eq_left (le_of_lt hd), max_eq_right (le_of_lt hd), key]
      constructor
      · nlinarith
      · nlinarith
  · intro hcontra
    have key2 : smoothUpdate r (smoothUpdate r d s) s
        = d + (2 * r - r ^ 2) * (s - d) := by
      simp only [smoothUpdate]
      ring
    rw [key2, key] at hcontra
    have hr2 : r ^ 2 * (s - d) ≠ 0 := by
      have hsd : s - d ≠ 0 := sub_ne_zero.2 hne
      positivity
    apply hr2
    nlinarith [hcontra]

/-- Witness for C8 at `d = 2`, `s = 7`, `r = 1/5` (the `alpha_zero`
smoothing rate of `defaults.json`). -/
theorem cost_update_strictly_between_witness :
    ((0 : ℚ) < 1/5 ∧ (1 : ℚ)/5 < 1 ∧ (7 : ℚ) ≠ 2) ∧
    ((min (2 : ℚ) 7 < smoothUpdate (1/5) 2 7 ∧ smoothUpdate (1/5) 2 7 < max (2 : ℚ) 7) ∧
      smoothUpdate (1/5) (smoothUpdate (1/5) 2 7) 7
        ≠ 2 + 2 * (smoothUpdate (1/5) 2 7 - 2)) :=
  ⟨⟨by norm_num, by norm_num, by norm_num⟩,
   cost_update_strictly_between 2 7 (1/5) (by norm_num) (by norm_num) (by norm_num)⟩

/-- C9: for an environment whose population has zero machine agents
(before any mutation), `reset` returns the pair of two empty mappings:
there are no learning agents to observe. -/
theorem reset_empty_without_machines (pop : List Agent)
    (h : machineCount pop = 0) :
    resetEnv pop = ([], []) := by
  have hnil : machineAgents pop = [] := List.eq_nil_of_length_eq_zero h
  simp [resetEnv, hnil]

/-- Witness for C9: the freshly built population of 100 Human agents
has no machine agents, and `reset` on it returns `([], [])`. -/
theorem reset_empty_without_machines_witness :
    machineCount (mkPopulation 100) = 0 ∧ resetEnv (mkPopulation 100) = ([], []) :=
  ⟨by decide, reset_empty_without_machines (mkPopulation 100) (by decide)⟩

/-- C10: every omitted configuration option is filled from the packaged
defaults of `defaults.json` — an omitted `machine_parameters` behavior
resolves to `"selfish"`, an omitted `new_machines_after_mutation` to
`25`, an omitted `num_agents` to `100`, an omitted `number_of_paths` to
`3` — and resolving a partial configuration is the same as resolving
the one with the defaults supplied explicitly for the missing keys. -/
theorem omitted_options_resolve_to_defaults (u : PartialConfig) :
    (u.machineBehavior = none → (resolveConfig u).machineBehavior = "selfish") ∧
    (u.newMachinesAfterMutation = none → (resolveConfig u).newMachinesAfterMutation = 25) ∧
    (u.numAgents = none → (resolveConfig u).numAgents = 100) ∧
    (u.numberOfPaths = none → (resolveConfig u).numberOfPaths = 3) ∧
    resolveConfig (fillDefaults u) = resolveConfig u := by
  refine ⟨?_, ?_, ?_, ?_, ?_⟩
  · intro h
    simp [resolveConfig, h, defaultConfig]
  · intro h
    simp [resolveConfig, h, defaultConfig]
  · intro h
    simp [resolveConfig, h, defaultConfig]
  · intro h
    simp [resolveConfig, h, defaultConfig]
  · simp [resolveConfig, fillDefaults]

/-- Witness for C10: the all-omitted parameter dictionary resolves to
the packaged defaults. -/
theorem omitted_options_resolve_to_defaults_witness :
    ((⟨none, none, none, none⟩ : PartialConfig).machineBehavior = none ∧
      (resolveConfig ⟨none, none, none, none⟩).machineBehavior = "selfish") ∧
    ((⟨none, none, none, none⟩ : PartialConfig).newMachinesAfterMutation = none ∧
      (resolveConfig ⟨none, none, none, none⟩).newMachinesAfterMutation = 25) ∧
    ((⟨none, none, none, none⟩ : PartialConfig).numAgents = none ∧
      (resolveConfig ⟨none, none, none, none⟩).numAgents = 100) ∧
    ((⟨none, none, none, none⟩ : PartialConfig).numberOfPaths = none ∧
      (resolveConfig ⟨none, none, none, none⟩).numberOfPaths = 3) :=
  ⟨⟨rfl, (omitted_options_resolve_to_defaults ⟨none, none, none, none⟩).1 rfl⟩,
   ⟨rfl, (omitted_options_resolve_to_defaults ⟨none, none, none, none⟩).2.1 rfl⟩,
   ⟨rfl, (omitted_options_resolve_to_defaults ⟨none, none, none, none⟩).2.2.1 rfl⟩,
   ⟨rfl, (omitted_options_resolve_to_defaults ⟨none, none, none, none⟩).2.2.2.1 rfl⟩⟩

end RouteRL
